import Mathlib

/-!
Shallow embedding of the `amateurlog` logic-programming kernel
(`src/lib.rs`): atoms, variables with binding cells, compound terms
(functors), the clause store (`Database`), the unifier and the resolver
(`satisfy`).  Rust's in-place mutation of `&mut` term trees is modelled
by returning the mutated values explicitly: `unify` returns the mutated
first functor together with `Option` of the unified second functor, and
`satisfy` returns the (unchanged) database together with the optional
answer.
-/

namespace Amateurlog

/-- `struct Atom(String)` — an immutable textual symbol, compared by value. -/
structure Atom where
  val : String
deriving DecidableEq, Repr

/-- `enum VariableName { Anonymous, Name(String) }`. -/
inductive VariableName where
  | Anonymous : VariableName
  | Name : String → VariableName
deriving DecidableEq, Repr

mutual
/-- `struct Variable { name, alias, bound_to: Option<VariableBinding> }`.
The diagnostic alias is carried as a plain string field. -/
inductive Variable where
  | mk : VariableName → String → Option VariableBinding → Variable

/-- `enum VariableBinding { Variable(Box<Variable>), Atom(Atom) }`.
The boxed variable is an owned value (a clone), not a shared cell. -/
inductive VariableBinding where
  | Variable : Variable → VariableBinding
  | Atom : Atom → VariableBinding
end

/-- Field accessor for `Variable.name`. -/
def Variable.name : Variable → VariableName
  | .mk n _ _ => n

/-- Field accessor for the diagnostic alias field of `Variable`. -/
def Variable.aliasStr : Variable → String
  | .mk _ a _ => a

/-- Field accessor for `Variable.bound_to`. -/
def Variable.bound_to : Variable → Option VariableBinding
  | .mk _ _ b => b

/-- `Variable::bind`: overwrite the binding cell with `Some(binding)`. -/
def Variable.bind : Variable → VariableBinding → Variable
  | .mk n a _, b => .mk n a (some b)

/-- `Variable::resolve`: dereference the binding chain and return the
terminal atom, or `none` if the chain ends unbound. -/
def Variable.resolve : Variable → Option Atom
  | .mk _ _ (some (.Atom a)) => some a
  | .mk _ _ (some (.Variable v)) => v.resolve
  | .mk _ _ none => none

/-- `Variable::resolves_to`: true iff `resolve` yields exactly that atom. -/
def Variable.resolves_to (v : Variable) (other : Atom) : Bool :=
  match v.resolve with
  | some a => a == other
  | none => false

/-- `Variable::is_bound`: the binding cell is non-empty. -/
def Variable.is_bound (v : Variable) : Bool :=
  v.bound_to.isSome

/-- `enum FunctorState`. -/
inductive FunctorState where
  | NotYetMatched : FunctorState
  | Matched : FunctorState
  | NoMatch : FunctorState
  | Fulfilled : FunctorState
deriving DecidableEq, Repr

mutual
/-- `enum Term { Atom(Atom), Variable(Variable), Functor(Box<Functor>) }`. -/
inductive Term where
  | Atom : Atom → Term
  | Variable : Variable → Term
  | Functor : Functor → Term

/-- `struct Functor { name, args, body, state, ix }`. -/
inductive Functor where
  | mk : Atom → List Term → List Functor → FunctorState → Nat → Functor
end

/-- Field accessor for `Functor.name`. -/
def Functor.name : Functor → Atom
  | .mk n _ _ _ _ => n

/-- Field accessor for `Functor.args`. -/
def Functor.args : Functor → List Term
  | .mk _ a _ _ _ => a

/-- Field accessor for `Functor.body`. -/
def Functor.body : Functor → List Functor
  | .mk _ _ b _ _ => b

/-- Field accessor for `Functor.state`. -/
def Functor.state : Functor → FunctorState
  | .mk _ _ _ s _ => s

/-- Field accessor for `Functor.ix`. -/
def Functor.ix : Functor → Nat
  | .mk _ _ _ _ i => i

/-- `Functor::new_rule`: state `NotYetMatched`, index 0. -/
def Functor.new_rule (name : Atom) (args : List Term) (body : List Functor) : Functor :=
  .mk name args body .NotYetMatched 0

/-- `Functor::new_fact`: a rule with an empty body. -/
def Functor.new_fact (name : Atom) (args : List Term) : Functor :=
  Functor.new_rule name args []

/-- The `PartialEq` instance on `Functor`: equal name and equal number of
arguments; argument values are irrelevant. -/
def Functor.peq (f g : Functor) : Bool :=
  f.name == g.name && f.args.length == g.args.length

/-- Overwrite the store-assigned index of a functor. -/
def Functor.setIx : Functor → Nat → Functor
  | .mk n a b s _, i => .mk n a b s i

/-- `struct Database { facts: Vec<Functor> }`. -/
structure Database where
  facts : List Functor

/-- `Database::new`. -/
def Database.new : Database := ⟨[]⟩

/-- `Database::add`: append, stamping the clause with the next index. -/
def Database.add (db : Database) (functor : Functor) : Database :=
  ⟨db.facts ++ [functor.setIx db.facts.length]⟩

/-- `Database::from_rules`: bulk construction, indices `0..n-1`. -/
def Database.from_rules (rules : List Functor) : Database :=
  ⟨(rules.enum.map fun p => p.2.setIx p.1)⟩

mutual
/-- One iteration of the `match (fst_term, snd_term)` in `Database::unify`:
returns the (possibly mutated) first term, the (possibly mutated) second
term, and whether the pair unified (`false` models `return None`). -/
def unifyPair : Term → Term → Term × Term × Bool
  | .Atom a1, .Atom a2 =>
      if a1 == a2 then (.Atom a1, .Atom a2, true) else (.Atom a1, .Atom a2, false)
  | .Atom a, .Variable v =>
      if v.resolves_to a then (.Atom a, .Variable v, true)
      else if v.is_bound then (.Atom a, .Variable v, false)
      else (.Atom a, .Variable (v.bind (.Atom a)), true)
  | .Atom a, .Functor f => (.Atom a, .Functor f, false)
  | .Variable v, .Atom b =>
      if !v.is_bound then (.Variable (v.bind (.Atom b)), .Atom b, true)
      else if v.resolves_to b then (.Variable v, .Atom b, true)
      else (.Variable v, .Atom b, false)
  | .Variable v1, .Variable v2 =>
      match v1.resolve, v2.resolve with
      | none, none =>
          let v1x := v1.bind (.Variable v2)
          let v2x := v2.bind (.Variable v1x)
          (.Variable v1x, .Variable v2x, true)
      | some a, none => (.Variable v1, .Variable (v2.bind (.Atom a)), true)
      | none, some a => (.Variable (v1.bind (.Atom a)), .Variable v2, true)
      | some _, some _ => (.Variable v1, .Variable v2, false)
  | .Variable v, .Functor f => (.Variable v, .Functor f, false)
  | .Functor f, .Atom a => (.Functor f, .Atom a, false)
  | .Functor f, .Variable v => (.Functor f, .Variable v, false)
  | .Functor f1, .Functor f2 =>
      let r := unifyFunctor f1 f2
      (.Functor r.1, .Functor f2, r.2.2)

/-- The `for`-loop of `Database::unify` over `zip`-ped argument lists:
stops at the shorter list; on a failing pair the remaining arguments are
left untouched. -/
def unifyArgs : List Term → List Term → List Term × List Term × Bool
  | [], ss => ([], ss, true)
  | fs, [] => (fs, [], true)
  | f :: fs, s :: ss =>
      let r := unifyPair f s
      if r.2.2 then
        let rest := unifyArgs fs ss
        (r.1 :: rest.1, r.2.1 :: rest.2.1, rest.2.2)
      else
        (r.1 :: fs, r.2.1 :: ss, false)

/-- `Database::unify` on two functors, keeping both mutated sides:
only the argument lists are touched. -/
def unifyFunctor : Functor → Functor → Functor × Functor × Bool
  | .mk n1 a1 b1 s1 i1, .mk n2 a2 b2 s2 i2 =>
      let r := unifyArgs a1 a2
      (.mk n1 r.1 b1 s1 i1, .mk n2 r.2.1 b2 s2 i2, r.2.2)
end

/-- `Database::unify(&self, fst: &mut Functor, snd: Functor) -> Option<Functor>`:
the first component is the state of `fst` after the call (mutations are
kept even on failure), the second is `Some(snd)` on success and `None`
on failure.  The receiver is unused by the source except for recursion. -/
def Database.unify (_db : Database) (fst snd : Functor) : Functor × Option Functor :=
  let r := unifyFunctor fst snd
  (r.1, if r.2.2 then some r.2.1 else none)

/-- The candidate scan of `Database::satisfy` over the working copy of the
store: returns the mutated working list (failed attempts leave their
partial mutations on the candidate) and the answer. -/
def satisfyGo : List Functor → Functor → List Functor × Option Functor
  | [], _ => ([], none)
  | f :: fs, goal =>
      if Functor.peq f goal then
        let r := unifyFunctor f goal
        if r.2.2 then (r.1 :: fs, some r.2.1)
        else
          let rest := satisfyGo fs goal
          (r.1 :: rest.1, rest.2)
      else
        let rest := satisfyGo fs goal
        (f :: rest.1, rest.2)

/-- `Database::satisfy(&mut self, goal) -> Option<Functor>`: works on a
clone of the store (the mutated clone is dropped), tries each candidate
against a fresh clone of the goal, and returns the receiver's state after
the call together with the answer. -/
def Database.satisfy (db : Database) (goal : Functor) : Database × Option Functor :=
  let working := satisfyGo db.facts goal
  (db, working.2)


/-! ## Helper lemmas about variables -/

/-- Binding a variable to an atom makes it resolve to that atom. -/
theorem Variable.resolve_bind_atom (v : Variable) (a : Atom) :
    (v.bind (.Atom a)).resolve = some a := by
  cases v with
  | mk n al bt => rfl

/-- An unbound variable resolves to nothing. -/
theorem Variable.resolve_of_unbound (v : Variable) (hv : v.bound_to = none) :
    v.resolve = none := by
  cases v with
  | mk n al bt =>
    simp only [Variable.bound_to] at hv
    subst hv
    rfl

/-- An unbound variable is not bound. -/
theorem Variable.is_bound_of_unbound (v : Variable) (hv : v.bound_to = none) :
    v.is_bound = false := by
  cases v with
  | mk n al bt =>
    simp only [Variable.bound_to] at hv
    subst hv
    rfl

/-- A variable that resolves to an atom has a non-empty binding cell. -/
theorem Variable.is_bound_of_resolve (v : Variable) (a : Atom)
    (h : v.resolve = some a) : v.is_bound = true := by
  cases v with
  | mk n al bt =>
    cases bt with
    | none => simp [Variable.resolve] at h
    | some b => rfl

/-- `resolves_to` reduces to an atom comparison when `resolve` succeeds. -/
theorem Variable.resolves_to_of_resolve (v : Variable) (a b : Atom)
    (h : v.resolve = some a) : v.resolves_to b = (a == b) := by
  unfold Variable.resolves_to
  rw [h]

/-- An unbound variable resolves to no atom at all. -/
theorem Variable.resolves_to_of_unbound (v : Variable) (b : Atom)
    (hv : v.bound_to = none) : v.resolves_to b = false := by
  unfold Variable.resolves_to
  rw [Variable.resolve_of_unbound v hv]

/-! ## Chain depth and fuelled resolution (for the termination claim) -/

/-- Length of the variable-to-variable binding chain hanging off a
variable: each link is an owned boxed value, so this is well defined. -/
def Variable.depth : Variable → Nat
  | .mk _ _ (some (.Variable v)) => v.depth + 1
  | .mk _ _ (some (.Atom _)) => 0
  | .mk _ _ none => 0

/-- Fuelled chain dereferencing: returns `none` when the fuel runs out
before the chain ends, and `some` of the `resolve` answer otherwise. -/
def resolveFuel : Nat → Variable → Option (Option Atom)
  | 0, _ => none
  | _ + 1, .mk _ _ none => some none
  | _ + 1, .mk _ _ (some (.Atom a)) => some (some a)
  | n + 1, .mk _ _ (some (.Variable v)) => resolveFuel n v

/-- Any fuel above the chain depth is enough for `resolveFuel` to finish
and agree with `resolve`. -/
theorem resolveFuel_complete (n : Nat) :
    ∀ v : Variable, v.depth < n → resolveFuel n v = some v.resolve := by
  induction n with
  | zero =>
    intro v h
    exact absurd h (Nat.not_lt_zero _)
  | succ n ih =>
    intro v h
    cases v with
    | mk nm al bt =>
      cases bt with
      | none => rfl
      | some b =>
        cases b with
        | Atom a => rfl
        | Variable w =>
          have hd : w.depth < n := by
            have : w.depth + 1 < n + 1 := by
              simpa [Variable.depth] using h
            omega
          have hr : resolveFuel n w = some w.resolve := ih w hd
          simpa [resolveFuel, Variable.resolve] using hr

/-- Binding overwrites the cell, so the result is always bound. -/
theorem Variable.is_bound_bind (v : Variable) (b : VariableBinding) :
    (v.bind b).is_bound = true := by
  cases v with
  | mk n al bt => rfl

/-! ## Concrete fixtures used by witnesses and counterexamples -/

def atomA : Atom := ⟨"a"⟩
def atomB : Atom := ⟨"b"⟩
def atomC : Atom := ⟨"c"⟩
def atomP : Atom := ⟨"p"⟩
def atomQ : Atom := ⟨"q"⟩
def atomR : Atom := ⟨"r"⟩
def varX : Variable := .mk (.Name "X") "var_7" none
def varY : Variable := .mk (.Name "Y") "var_8" none
def varXa : Variable := .mk (.Name "X") "var_7" (some (.Atom atomA))
def varYa : Variable := .mk (.Name "Y") "var_8" (some (.Atom atomA))

/-! ## Claim theorems -/

/-- C10: `resolve` always terminates: every binding chain is a finite
owned structure (a cycle is unrepresentable), and dereferencing finishes
within `depth + 1` steps, returning the terminal atom of the chain or
`none` when the chain ends unbound — exactly the value `resolve` gives. -/
theorem resolve_terminates_within_chain_depth (v : Variable) :
    resolveFuel (v.depth + 1) v = some v.resolve :=
  resolveFuel_complete (v.depth + 1) v (Nat.lt_succ_self _)

/-- C9: unifying an unbound variable with an atom succeeds and binds the
variable so that it resolves to that atom; repeating the very same
unification still succeeds and leaves the binding unchanged. -/
theorem unify_unbound_atom_idempotent (db : Database) (v : Variable)
    (hv : v.bound_to = none) (a n m : Atom) (fb sb : List Functor)
    (fs ss : FunctorState) (fi si : Nat) :
    (db.unify (.mk n [.Variable v] fb fs fi) (.mk m [.Atom a] sb ss si)).2
      = some (.mk m [.Atom a] sb ss si) ∧
    (db.unify (.mk n [.Variable v] fb fs fi) (.mk m [.Atom a] sb ss si)).1
      = .mk n [.Variable (v.bind (.Atom a))] fb fs fi ∧
    (v.bind (.Atom a)).resolve = some a ∧
    (db.unify (.mk n [.Variable (v.bind (.Atom a))] fb fs fi)
        (.mk m [.Atom a] sb ss si)).2
      = some (.mk m [.Atom a] sb ss si) ∧
    (db.unify (.mk n [.Variable (v.bind (.Atom a))] fb fs fi)
        (.mk m [.Atom a] sb ss si)).1
      = .mk n [.Variable (v.bind (.Atom a))] fb fs fi := by
  have hnb := Variable.is_bound_of_unbound v hv
  have hb := Variable.is_bound_bind v (.Atom a)
  have hr := Variable.resolve_bind_atom v a
  have hrt : (v.bind (.Atom a)).resolves_to a = true := by
    rw [Variable.resolves_to_of_resolve _ _ _ hr]
    simp
  refine ⟨?_, ?_, hr, ?_, ?_⟩ <;>
    simp [Database.unify, unifyFunctor, unifyArgs, unifyPair, hnb, hb, hrt]

/-- C9 witness: the theorem applied to the unbound variable `X`, the atom
`a`, and one-argument `p` functors. -/
theorem unify_unbound_atom_idempotent_witness :
    (Database.new.unify (.mk atomP [.Variable varX] [] .NotYetMatched 0)
        (.mk atomP [.Atom atomA] [] .NotYetMatched 0)).2
      = some (.mk atomP [.Atom atomA] [] .NotYetMatched 0) ∧
    (Database.new.unify (.mk atomP [.Variable varX] [] .NotYetMatched 0)
        (.mk atomP [.Atom atomA] [] .NotYetMatched 0)).1
      = .mk atomP [.Variable (varX.bind (.Atom atomA))] [] .NotYetMatched 0 ∧
    (varX.bind (.Atom atomA)).resolve = some atomA ∧
    (Database.new.unify (.mk atomP [.Variable (varX.bind (.Atom atomA))] [] .NotYetMatched 0)
        (.mk atomP [.Atom atomA] [] .NotYetMatched 0)).2
      = some (.mk atomP [.Atom atomA] [] .NotYetMatched 0) ∧
    (Database.new.unify (.mk atomP [.Variable (varX.bind (.Atom atomA))] [] .NotYetMatched 0)
        (.mk atomP [.Atom atomA] [] .NotYetMatched 0)).1
      = .mk atomP [.Variable (varX.bind (.Atom atomA))] [] .NotYetMatched 0 :=
  unify_unbound_atom_idempotent Database.new varX rfl atomA atomP atomP
    [] [] .NotYetMatched .NotYetMatched 0 0

/-- C8: a variable already resolving to atom `a`, unified against a
different atom `b` in either argument order, fails, and the variable's
cell is left exactly as it was (it still resolves to `a`). -/
theorem unify_conflicting_atom_fails_unaltered (db : Database) (v : Variable)
    (a b : Atom) (hres : v.resolve = some a) (hne : b ≠ a)
    (n m : Atom) (fb sb : List Functor) (fs ss : FunctorState) (fi si : Nat) :
    (db.unify (.mk n [.Variable v] fb fs fi) (.mk m [.Atom b] sb ss si)).2 = none ∧
    (db.unify (.mk n [.Variable v] fb fs fi) (.mk m [.Atom b] sb ss si)).1
      = .mk n [.Variable v] fb fs fi ∧
    (db.unify (.mk n [.Atom b] fb fs fi) (.mk m [.Variable v] sb ss si)).2 = none ∧
    (unifyFunctor (.mk n [.Atom b] fb fs fi) (.mk m [.Variable v] sb ss si)).2.1
      = .mk m [.Variable v] sb ss si := by
  have hb := Variable.is_bound_of_resolve v a hres
  have hrt : v.resolves_to b = (a == b) := Variable.resolves_to_of_resolve v a b hres
  have hab : (a == b) = false := by
    simp [beq_iff_eq]
    exact hne.symm
  refine ⟨?_, ?_, ?_, ?_⟩ <;>
    simp [Database.unify, unifyFunctor, unifyArgs, unifyPair, hb, hrt, hab]

/-- C8 witness: the theorem applied to `X` bound to atom `a` and the
distinct atom `b`. -/
theorem unify_conflicting_atom_fails_unaltered_witness :
    (Database.new.unify (.mk atomP [.Variable varXa] [] .NotYetMatched 0)
        (.mk atomP [.Atom atomB] [] .NotYetMatched 0)).2 = none ∧
    (Database.new.unify (.mk atomP [.Variable varXa] [] .NotYetMatched 0)
        (.mk atomP [.Atom atomB] [] .NotYetMatched 0)).1
      = .mk atomP [.Variable varXa] [] .NotYetMatched 0 ∧
    (Database.new.unify (.mk atomP [.Atom atomB] [] .NotYetMatched 0)
        (.mk atomP [.Variable varXa] [] .NotYetMatched 0)).2 = none ∧
    (unifyFunctor (.mk atomP [.Atom atomB] [] .NotYetMatched 0)
        (.mk atomP [.Variable varXa] [] .NotYetMatched 0)).2.1
      = .mk atomP [.Variable varXa] [] .NotYetMatched 0 :=
  unify_conflicting_atom_fails_unaltered Database.new varXa atomA atomB rfl
    (by decide) atomP atomP [] [] .NotYetMatched .NotYetMatched 0 0

/-- C6: when the first argument pair of a compound unification succeeds by
binding an unbound variable and a later pair fails, `unify` returns `none`
but the earlier binding is not rolled back: the mutated first functor
still carries the variable bound to the atom. -/
theorem unify_no_rollback_on_later_failure (db : Database) (v : Variable)
    (hv : v.bound_to = none) (a b c : Atom) (hbc : b ≠ c)
    (n m : Atom) (fb sb : List Functor) (fs ss : FunctorState) (fi si : Nat) :
    (db.unify (.mk n [.Variable v, .Atom b] fb fs fi)
        (.mk m [.Atom a, .Atom c] sb ss si)).2 = none ∧
    (db.unify (.mk n [.Variable v, .Atom b] fb fs fi)
        (.mk m [.Atom a, .Atom c] sb ss si)).1
      = .mk n [.Variable (v.bind (.Atom a)), .Atom b] fb fs fi ∧
    (v.bind (.Atom a)).resolve = some a := by
  have hnb := Variable.is_bound_of_unbound v hv
  have hbc2 : (b == c) = false := by
    simp [beq_iff_eq]
    exact hbc
  refine ⟨?_, ?_, Variable.resolve_bind_atom v a⟩ <;>
    simp [Database.unify, unifyFunctor, unifyArgs, unifyPair, hnb, hbc2]

/-- C6 witness: unifying `p(X, b)` with `p(a, c)` fails on the second pair
and leaves `X` bound to `a`. -/
theorem unify_no_rollback_on_later_failure_witness :
    (Database.new.unify (.mk atomP [.Variable varX, .Atom atomB] [] .NotYetMatched 0)
        (.mk atomP [.Atom atomA, .Atom atomC] [] .NotYetMatched 0)).2 = none ∧
    (Database.new.unify (.mk atomP [.Variable varX, .Atom atomB] [] .NotYetMatched 0)
        (.mk atomP [.Atom atomA, .Atom atomC] [] .NotYetMatched 0)).1
      = .mk atomP [.Variable (varX.bind (.Atom atomA)), .Atom atomB] [] .NotYetMatched 0 ∧
    (varX.bind (.Atom atomA)).resolve = some atomA :=
  unify_no_rollback_on_later_failure Database.new varX rfl atomA atomB atomC
    (by decide) atomP atomP [] [] .NotYetMatched .NotYetMatched 0 0

/-! ## The resolver against its specification -/

/-- The spec's description of `satisfy` (§4.4): the first clause of the
store, in insertion order, whose name and arity match the goal and whose
unification with a fresh copy of the goal succeeds, determines the
answer (the unified goal copy); if no candidate qualifies the result is
`none`. -/
def specSatisfy (facts : List Functor) (goal : Functor) : Option Functor :=
  match facts.find? (fun f => Functor.peq f goal && (unifyFunctor f goal).2.2) with
  | some f => some (unifyFunctor f goal).2.1
  | none => none

/-- The candidate scan agrees with the spec-side first-match search. -/
theorem satisfyGo_eq_spec (fs : List Functor) (goal : Functor) :
    (satisfyGo fs goal).2 = specSatisfy fs goal := by
  induction fs with
  | nil => rfl
  | cons f fs ih =>
    cases hp : Functor.peq f goal <;> cases ho : (unifyFunctor f goal).2.2 <;>
      simp [satisfyGo, specSatisfy, List.find?, hp, ho] <;>
      simpa [specSatisfy] using ih

/-- C5: `satisfy` returns the answer produced by the first clause in
insertion order whose name and arity match the goal's and whose
unification with a fresh copy of the goal succeeds, skipping all other
candidates; when no candidate unifies it returns `none`. -/
theorem satisfy_eq_first_match (db : Database) (goal : Functor) :
    (db.satisfy goal).2 = specSatisfy db.facts goal :=
  satisfyGo_eq_spec db.facts goal

/-- C7: `satisfy` leaves the caller's store untouched (it works on a
private copy), and a candidate that fails to unify — or does not match
structurally — contributes nothing: the scan's answer is the same as if
that candidate were absent, with the goal passed on unchanged. -/
theorem satisfy_frame (db : Database) (goal f : Functor) (fs : List Functor)
    (hfail : Functor.peq f goal = false ∨ (unifyFunctor f goal).2.2 = false) :
    (db.satisfy goal).1 = db ∧
    (satisfyGo (f :: fs) goal).2 = (satisfyGo fs goal).2 := by
  refine ⟨rfl, ?_⟩
  rcases hfail with h | h
  · simp [satisfyGo, h]
  · cases hp : Functor.peq f goal <;> simp [satisfyGo, hp, h]

/-- C7 witness: the candidate `p(a)` matches the goal `p(b)` structurally
but fails to unify, and is skipped without any observable effect. -/
theorem satisfy_frame_witness :
    ((Database.new.satisfy (.mk atomP [.Atom atomB] [] .NotYetMatched 0)).1
      = Database.new) ∧
    (satisfyGo [Functor.mk atomP [.Atom atomA] [] .NotYetMatched 0]
        (.mk atomP [.Atom atomB] [] .NotYetMatched 0)).2
      = (satisfyGo [] (.mk atomP [.Atom atomB] [] .NotYetMatched 0)).2 :=
  satisfy_frame Database.new (.mk atomP [.Atom atomB] [] .NotYetMatched 0)
    (.mk atomP [.Atom atomA] [] .NotYetMatched 0) [] (Or.inr (by decide))

/-! ## Compound-versus-compound pairs (C2) -/

/-- Success of the argument loop is the conjunction of the success of the
zipped pairs, each taken on the original (independent) argument cells. -/
theorem unifyArgs_ok_eq_all (as : List Term) :
    ∀ bs : List Term,
      (unifyArgs as bs).2.2 = (as.zip bs).all (fun p => (unifyPair p.1 p.2).2.2) := by
  induction as with
  | nil =>
    intro bs
    simp [unifyArgs]
  | cons a as ih =>
    intro bs
    cases bs with
    | nil => simp [unifyArgs]
    | cons b bs =>
      cases ho : (unifyPair a b).2.2 <;> simp [unifyArgs, ho, ih bs]

/-- C2 counterexample: a nested compound pair with different predicate
names (`q(a)` against `r(a)`) unifies successfully, and so does a nested
pair with different argument counts (`q(a, b)` against `q(a)`); the claim
says both must fail. -/
theorem nested_compound_mismatch_unifies_cex :
    (Database.new.unify
        (Functor.new_fact atomP [.Functor (Functor.new_fact atomQ [.Atom atomA])])
        (Functor.new_fact atomP [.Functor (Functor.new_fact atomR [.Atom atomA])])).2
      = some (Functor.new_fact atomP [.Functor (Functor.new_fact atomR [.Atom atomA])]) ∧
    (Database.new.unify
        (Functor.new_fact atomP [.Functor (Functor.new_fact atomQ [.Atom atomA, .Atom atomB])])
        (Functor.new_fact atomP [.Functor (Functor.new_fact atomQ [.Atom atomA])])).2
      = some (Functor.new_fact atomP [.Functor (Functor.new_fact atomQ [.Atom atomA])]) :=
  ⟨rfl, rfl⟩

/-- C2 amended: a nested compound pair is unified by recursing over the
positionally zipped argument pairs only — the nested predicate names and
arities are never compared, the zip stops at the shorter argument list,
and the pair succeeds exactly when every zipped argument pair succeeds. -/
theorem nested_compound_unifies_by_zipped_args (db : Database)
    (n m n1 n2 : Atom) (as bs : List Term)
    (ob ib ob2 ib2 : List Functor) (os is1 os2 is2 : FunctorState)
    (oi ii oi2 ii2 : Nat) :
    (db.unify (.mk n [.Functor (.mk n1 as ib is1 ii)] ob os oi)
        (.mk m [.Functor (.mk n2 bs ib2 is2 ii2)] ob2 os2 oi2)).2.isSome
      = (as.zip bs).all (fun p => (unifyPair p.1 p.2).2.2) := by
  cases ho : (unifyArgs as bs).2.2 <;>
    simp [Database.unify, unifyFunctor, unifyArgs, unifyPair,
      ← unifyArgs_ok_eq_all, ho]

/-! ## Variable pairs where both sides resolve (C1) -/

/-- C1 counterexample: two variables that both resolve to the same atom
`a`; the claim says this argument pair must unify, but `unify` fails. -/
theorem both_resolved_equal_atoms_fails_cex :
    varXa.resolve = some atomA ∧
    varYa.resolve = some atomA ∧
    (Database.new.unify (Functor.new_fact atomP [.Variable varXa])
        (Functor.new_fact atomP [.Variable varYa])).2 = none :=
  ⟨rfl, rfl, rfl⟩

/-- C1 amended: whenever both variables of a variable/variable argument
pair resolve to atoms, `unify` fails on that pair — whether or not the
two resolved atoms are equal. -/
theorem both_resolved_vars_always_fail (db : Database) (v1 v2 : Variable)
    (a b : Atom) (h1 : v1.resolve = some a) (h2 : v2.resolve = some b)
    (n m : Atom) (fb sb : List Functor) (fs ss : FunctorState) (fi si : Nat) :
    (db.unify (.mk n [.Variable v1] fb fs fi)
        (.mk m [.Variable v2] sb ss si)).2 = none ∧
    (db.unify (.mk n [.Variable v1] fb fs fi)
        (.mk m [.Variable v2] sb ss si)).1 = .mk n [.Variable v1] fb fs fi := by
  constructor <;> simp [Database.unify, unifyFunctor, unifyArgs, unifyPair, h1, h2]

/-- C1 amended witness: both variables resolve to the same atom `a` and
the pair still fails. -/
theorem both_resolved_vars_always_fail_witness :
    (Database.new.unify (.mk atomP [.Variable varXa] [] .NotYetMatched 0)
        (.mk atomP [.Variable varYa] [] .NotYetMatched 0)).2 = none ∧
    (Database.new.unify (.mk atomP [.Variable varXa] [] .NotYetMatched 0)
        (.mk atomP [.Variable varYa] [] .NotYetMatched 0)).1
      = .mk atomP [.Variable varXa] [] .NotYetMatched 0 :=
  both_resolved_vars_always_fail Database.new varXa varYa atomA atomA rfl rfl
    atomP atomP [] [] .NotYetMatched .NotYetMatched 0 0

/-! ## Linking two unbound variables (C3) -/

/-- The cell `X` receives at link time: a copy of the still-unbound `Y`. -/
def varXlinked : Variable := varX.bind (.Variable varY)

/-- The cell `Y` receives at link time: a copy of the already-linked `X`. -/
def varYlinked : Variable := varY.bind (.Variable varXlinked)

/-- C3 evaluation: unifying the unbound variables `X` and `Y` "links"
them by storing an owned copy of the partner in each cell (`X` a copy of
the pre-link `Y`, `Y` a copy of the already-linked `X`), and neither
resolves to a concrete value.  But because the stored partners are
independent copies, binding either original cell to the atom `a`
afterwards makes only that cell resolve to `a`: the partner still holds
its stale copy and still resolves to `none`, not to `a` as the claim
requires. -/
theorem var_link_clone_no_propagation :
    (Database.new.unify (Functor.new_fact atomP [.Variable varX])
        (Functor.new_fact atomP [.Variable varY])).1
      = Functor.new_fact atomP [.Variable varXlinked] ∧
    (Database.new.unify (Functor.new_fact atomP [.Variable varX])
        (Functor.new_fact atomP [.Variable varY])).2
      = some (Functor.new_fact atomP [.Variable varYlinked]) ∧
    varXlinked.resolve = none ∧
    varYlinked.resolve = none ∧
    varXlinked.bound_to = some (.Variable varY) ∧
    varYlinked.bound_to = some (.Variable varXlinked) ∧
    (varXlinked.bind (.Atom atomA)).resolve = some atomA ∧
    varYlinked.resolve = none ∧
    (varYlinked.bind (.Atom atomA)).resolve = some atomA ∧
    varXlinked.resolve = none :=
  ⟨rfl, rfl, rfl, rfl, rfl, rfl, rfl, rfl, rfl, rfl⟩

/-! ## Nested bindings in the answer returned by satisfy (C4) -/

/-- A store holding the single fact `p(q(a))`. -/
def nestedDb : Database :=
  Database.from_rules [Functor.new_fact atomP [.Functor (Functor.new_fact atomQ [.Atom atomA])]]

/-- The goal `p(q(X))` with `X` unbound. -/
def nestedGoal : Functor :=
  Functor.new_fact atomP [.Functor (Functor.new_fact atomQ [.Variable varX])]

/-- C4 counterexample: `satisfy` succeeds on the goal `p(q(X))` against
the stored fact `p(q(a))`, but the returned answer is the goal copy with
the nested argument untouched: inspecting it shows `X` still unbound
(resolving to nothing), not bound to `a` as the claim requires. -/
theorem satisfy_nested_binding_dropped_cex :
    (nestedDb.satisfy nestedGoal).2 = some nestedGoal ∧
    varX.bound_to = none ∧
    varX.resolve = none :=
  ⟨rfl, rfl, rfl⟩

/-- C4 amended: when `satisfy` succeeds via a clause whose corresponding
nested position holds an atom, the returned answer does not carry the
nested binding: the recursive compound step unifies a discarded copy of
the goal's nested functor, so the answer is the goal copy verbatim and
the nested variable in it is still unbound. -/
theorem satisfy_nested_variable_stays_unbound (v : Variable)
    (hv : v.bound_to = none) (pn qn a : Atom) :
    ((Database.from_rules
        [Functor.new_fact pn [.Functor (Functor.new_fact qn [.Atom a])]]).satisfy
        (Functor.new_fact pn [.Functor (Functor.new_fact qn [.Variable v])])).2
      = some (Functor.new_fact pn [.Functor (Functor.new_fact qn [.Variable v])]) := by
  have hnb := Variable.is_bound_of_unbound v hv
  have hrt := Variable.resolves_to_of_unbound v a hv
  simp [Database.satisfy, satisfyGo, Database.from_rules, List.enum, List.enumFrom,
    Functor.new_fact, Functor.new_rule, Functor.peq, Functor.name, Functor.args,
    Functor.setIx, unifyFunctor, unifyArgs, unifyPair, hnb, hrt]

/-- C4 amended witness: the concrete store `[p(q(a))]` and goal `p(q(X))`. -/
theorem satisfy_nested_variable_stays_unbound_witness :
    ((Database.from_rules
        [Functor.new_fact atomP [.Functor (Functor.new_fact atomQ [.Atom atomA])]]).satisfy
        (Functor.new_fact atomP [.Functor (Functor.new_fact atomQ [.Variable varX])])).2
      = some (Functor.new_fact atomP [.Functor (Functor.new_fact atomQ [.Variable varX])]) :=
  satisfy_nested_variable_stays_unbound varX rfl atomP atomQ atomA

end Amateurlog
